import Mathlib

/-!
Shallow embedding of src/src/utils/permissionManagement.ts (document-manager).

Modelling conventions, all visible in the definitions below:
* The module-level mutable arrays (users, groups, permissions) become the
  fields of a PMState record; each mutating export takes and returns a state.
* uuidv4() is modelled by a fresh-id counter in the state (nextId), rendered
  as a string; new Date() is modelled by an explicit now : Nat argument to
  the operations that timestamp.
* A TS function returning T or PermissionError becomes
  Except PermissionError T (errors are values in the source too).
* JS in-place mutation of the object returned by Array.find, and
  Array.splice removal at the index returned by findIndex, act on the first
  matching element; they are embedded by updateFirst and removeFirst.
-/

namespace PM

/-- Strings of the JS source are modelled as character lists, so that every
operation below is structurally recursive and evaluates inside the kernel;
str embeds a Lean string literal. -/
abbrev Str := List Char

def str (s : String) : Str := s.data

/-- toLowerCase, for the ASCII range the module exercises. -/
def charToLower (c : Char) : Char :=
  if 65 ≤ c.toNat ∧ c.toNat ≤ 90 then Char.ofNat (c.toNat + 32) else c

def strToLower (s : Str) : Str := s.map charToLower

/-- trim: drop whitespace from both ends. -/
def strTrim (s : Str) : Str :=
  ((s.dropWhile Char.isWhitespace).reverse.dropWhile Char.isWhitespace).reverse

def digitChar (n : Nat) : Char := Char.ofNat (48 + n)

def natToStrAux : Nat → Nat → List Char
  | 0, _ => []
  | fuel+1, n => if n < 10 then [digitChar n] else natToStrAux fuel (n / 10) ++ [digitChar (n % 10)]

/-- Decimal rendering of the fresh-id counter standing in for uuidv4. -/
def natToStr (n : Nat) : Str := natToStrAux (n + 1) n

inductive Role where
  | user
  | admin
deriving DecidableEq, Repr

inductive GranteeType where
  | user
  | group
deriving DecidableEq, Repr

inductive PermissionLevel where
  | view
  | edit
  | download
  | admin
deriving DecidableEq, Repr

structure User where
  id : Str
  name : Str
  email : Str
  role : Role
deriving DecidableEq, Repr

structure Group where
  id : Str
  name : Str
  description : Option Str
  members : List Str
deriving DecidableEq, Repr

structure Permission where
  id : Str
  documentId : Str
  granteeId : Str
  granteeType : GranteeType
  level : PermissionLevel
  grantedBy : Str
  grantedAt : Nat
  updatedAt : Nat
deriving DecidableEq, Repr

inductive ErrorType where
  | VALIDATION_ERROR
  | NOT_FOUND
  | INVALID_OPERATION
  | UNAUTHORIZED
deriving DecidableEq, Repr

structure PermissionError where
  type : ErrorType
  message : String
deriving DecidableEq, Repr

/-- The module-level state: let users / groups / permissions arrays, plus the
fresh-id counter standing in for uuidv4. -/
structure PMState where
  users : List User
  groups : List Group
  permissions : List Permission
  nextId : Nat
deriving DecidableEq, Repr

def emptyState : PMState := { users := [], groups := [], permissions := [], nextId := 0 }

/-- levels array of hasPermissionLevel. -/
def levels : List PermissionLevel := [.view, .edit, .download, .admin]

/-- hasPermissionLevel: levels.indexOf(userLevel) >= levels.indexOf(requiredLevel). -/
def hasPermissionLevel (userLevel requiredLevel : PermissionLevel) : Bool :=
  levels.indexOf userLevel ≥ levels.indexOf requiredLevel

/-- getDocumentPermissions: permissions.filter(p => p.documentId === documentId). -/
def getDocumentPermissions (documentId : Str) (s : PMState) : List Permission :=
  s.permissions.filter (fun p => p.documentId == documentId)

/-- getUserPermissions: direct user grants plus grants to any group whose
members include the user. -/
def getUserPermissions (userId : Str) (s : PMState) : List Permission :=
  let userGroups := s.groups.filter (fun g => g.members.contains userId)
  let groupIds := userGroups.map (fun g => g.id)
  s.permissions.filter (fun p =>
    (p.granteeType == .user && p.granteeId == userId) ||
    (p.granteeType == .group && groupIds.contains p.granteeId))

/-- createUser: validation, case-insensitive duplicate-email check
(u.email.toLowerCase() === email.toLowerCase()), then stores the user with
email.toLowerCase().trim(). -/
def createUser (name email : Str) (role : Role) (s : PMState) :
    Except PermissionError User × PMState :=
  if (strTrim name).isEmpty || (strTrim email).isEmpty then
    (.error ⟨.VALIDATION_ERROR, "Name and email are required"⟩, s)
  else if (s.users.find? (fun u => strToLower u.email == strToLower email)).isSome then
    (.error ⟨.INVALID_OPERATION, "User with this email already exists"⟩, s)
  else
    let newUser : User :=
      { id := natToStr s.nextId, name := strTrim name, email := strTrim (strToLower email), role := role }
    (.ok newUser, { s with users := s.users ++ [newUser], nextId := s.nextId + 1 })

/-- createGroup: validation, case-insensitive duplicate-name check, then
stores the group with trimmed name and description and empty members. -/
def createGroup (name : Str) (description : Option Str) (s : PMState) :
    Except PermissionError Group × PMState :=
  if (strTrim name).isEmpty then
    (.error ⟨.VALIDATION_ERROR, "Group name is required"⟩, s)
  else if (s.groups.find? (fun g => strToLower g.name == strToLower name)).isSome then
    (.error ⟨.INVALID_OPERATION, "Group with this name already exists"⟩, s)
  else
    let newGroup : Group :=
      { id := natToStr s.nextId, name := strTrim name,
        description := description.map (fun d => strTrim d), members := [] }
    (.ok newGroup, { s with groups := s.groups ++ [newGroup], nextId := s.nextId + 1 })

/-- updateFirst p f l applies f to the first element satisfying p, leaving the
rest unchanged: the embedding of mutating the object found by find/findIndex. -/
def updateFirst (p : α → Bool) (f : α → α) : List α → List α
  | [] => []
  | x :: xs => if p x then f x :: xs else x :: updateFirst p f xs

/-- removeFirst p l drops the first element satisfying p: the embedding of
splice(findIndex(p), 1). -/
def removeFirst (p : α → Bool) : List α → List α
  | [] => []
  | x :: xs => if p x then xs else x :: removeFirst p xs

/-- addUserToGroup: NOT_FOUND for unknown user or group, INVALID_OPERATION if
already a member, else pushes the user id onto the group found by findIndex. -/
def addUserToGroup (userId groupId : Str) (s : PMState) :
    Except PermissionError Bool × PMState :=
  if (s.users.find? (fun u => u.id == userId)).isNone then
    (.error ⟨.NOT_FOUND, "User not found"⟩, s)
  else
    match s.groups.find? (fun g => g.id == groupId) with
    | none => (.error ⟨.NOT_FOUND, "Group not found"⟩, s)
    | some grp =>
      if grp.members.contains userId then
        (.error ⟨.INVALID_OPERATION, "User is already a member of this group"⟩, s)
      else
        let groups1 := updateFirst (fun g => g.id == groupId)
          (fun g => { g with members := g.members ++ [userId] }) s.groups
        (.ok true, { s with groups := groups1 })

/-- removeUserFromGroup: NOT_FOUND for unknown group or non-member, else
splices the member out of the group found by findIndex. -/
def removeUserFromGroup (userId groupId : Str) (s : PMState) :
    Except PermissionError Bool × PMState :=
  match s.groups.find? (fun g => g.id == groupId) with
  | none => (.error ⟨.NOT_FOUND, "Group not found"⟩, s)
  | some grp =>
    if ¬ grp.members.contains userId then
      (.error ⟨.NOT_FOUND, "User is not a member of this group"⟩, s)
    else
      let groups1 := updateFirst (fun g => g.id == groupId)
        (fun g => { g with members := removeFirst (fun m => m == userId) g.members }) s.groups
      (.ok true, { s with groups := groups1 })

/-- The (documentId, granteeId, granteeType) predicate used by grantPermission
and revokePermission to locate an existing Permission. -/
def matchesTuple (documentId granteeId : Str) (granteeType : GranteeType)
    (p : Permission) : Bool :=
  p.documentId == documentId && p.granteeId == granteeId && p.granteeType == granteeType

/-- grantPermission: validates the grantee exists (NOT_FOUND otherwise); if a
Permission for the tuple exists, mutates its level and updatedAt in place and
returns it; otherwise pushes a fresh Permission. -/
def grantPermission (documentId granteeId : Str) (granteeType : GranteeType)
    (level : PermissionLevel) (grantedBy : Str) (now : Nat) (s : PMState) :
    Except PermissionError Permission × PMState :=
  if granteeType == .user && (s.users.find? (fun u => u.id == granteeId)).isNone then
    (.error ⟨.NOT_FOUND, "User not found"⟩, s)
  else if granteeType == .group && (s.groups.find? (fun g => g.id == granteeId)).isNone then
    (.error ⟨.NOT_FOUND, "Group not found"⟩, s)
  else
    match s.permissions.find? (matchesTuple documentId granteeId granteeType) with
    | some existing =>
      let permissions1 := updateFirst (matchesTuple documentId granteeId granteeType)
        (fun p => { p with level := level, updatedAt := now }) s.permissions
      (.ok { existing with level := level, updatedAt := now },
       { s with permissions := permissions1 })
    | none =>
      let newPermission : Permission :=
        { id := natToStr s.nextId, documentId := documentId, granteeId := granteeId,
          granteeType := granteeType, level := level, grantedBy := grantedBy,
          grantedAt := now, updatedAt := now }
      (.ok newPermission,
       { s with permissions := s.permissions ++ [newPermission], nextId := s.nextId + 1 })

/-- revokePermission: NOT_FOUND if no Permission matches the tuple, else
splices the matching Permission out. -/
def revokePermission (documentId granteeId : Str) (granteeType : GranteeType)
    (s : PMState) : Except PermissionError Bool × PMState :=
  if (s.permissions.find? (matchesTuple documentId granteeId granteeType)).isNone then
    (.error ⟨.NOT_FOUND, "Permission not found"⟩, s)
  else
    let permissions1 := removeFirst (matchesTuple documentId granteeId granteeType) s.permissions
    (.ok true, { s with permissions := permissions1 })

/-- checkPermission: admin bypass, then highest applicable level for the
document folded from view, compared against the requirement. -/
def checkPermission (documentId userId : Str) (requiredLevel : PermissionLevel)
    (s : PMState) : Bool :=
  if (s.users.find? (fun u => u.id == userId)).any (fun u => u.role == .admin) then
    true
  else
    let userPermissions := getUserPermissions userId s
    let documentPermissions := userPermissions.filter (fun p => p.documentId == documentId)
    if documentPermissions.isEmpty then
      false
    else
      let highestLevel := documentPermissions.foldl
        (fun highest current =>
          if hasPermissionLevel current.level highest then current.level else highest)
        .view
      hasPermissionLevel highestLevel requiredLevel

/-- getDocumentAccessList: user entries and group entries for the document,
each Permission paired with the principal looked up by id. The TS non-null
assertion (!) is rendered by keeping the Option from find?; its safety is one
of the theorems below. -/
def getDocumentAccessList (documentId : Str) (s : PMState) :
    List (Option User × Permission) × List (Option Group × Permission) :=
  let documentPermissions := getDocumentPermissions documentId s
  (documentPermissions.filter (fun p => p.granteeType == .user)
     |>.map (fun p => (s.users.find? (fun u => u.id == p.granteeId), p)),
   documentPermissions.filter (fun p => p.granteeType == .group)
     |>.map (fun p => (s.groups.find? (fun g => g.id == p.granteeId), p)))

/-- initializePermissions: seeds the admin user when the store is empty. -/
def initializePermissions (s : PMState) : PMState :=
  if s.users.isEmpty then (createUser (str "Admin") (str "admin@example.com") .admin s).2 else s

/-- getAllUsers returns the users array itself (no copy in the source). -/
def getAllUsers (s : PMState) : List User := s.users

/-- getAllGroups returns the groups array itself (no copy in the source). -/
def getAllGroups (s : PMState) : List Group := s.groups

/-- States reachable from the empty module state through the exported
mutating operations, with arbitrary caller-supplied arguments. -/
inductive Reachable : PMState → Prop where
  | init : Reachable emptyState
  | step_createUser (n e : Str) (r : Role) {s} :
      Reachable s → Reachable (createUser n e r s).2
  | step_createGroup (n : Str) (d : Option Str) {s} :
      Reachable s → Reachable (createGroup n d s).2
  | step_addUserToGroup (u g : Str) {s} :
      Reachable s → Reachable (addUserToGroup u g s).2
  | step_removeUserFromGroup (u g : Str) {s} :
      Reachable s → Reachable (removeUserFromGroup u g s).2
  | step_grantPermission (d g : Str) (t : GranteeType) (l : PermissionLevel)
      (gb : Str) (now : Nat) {s} :
      Reachable s → Reachable (grantPermission d g t l gb now s).2
  | step_revokePermission (d g : Str) (t : GranteeType) {s} :
      Reachable s → Reachable (revokePermission d g t s).2
  | step_initializePermissions {s} :
      Reachable s → Reachable (initializePermissions s)

/-- Position of a level in the order view < edit < download < admin, written
as an explicit table (spec section 3), independent of the indexOf computation. -/
def levelPos : PermissionLevel → Nat
  | .view => 0
  | .edit => 1
  | .download => 2
  | .admin => 3

/-- The (documentId, granteeId, granteeType) identity of a Permission. -/
def tupleKey (p : Permission) : Str × Str × GranteeType :=
  (p.documentId, p.granteeId, p.granteeType)

/-- Spec-side definition (spec section 4.3 step 2): the effective permission
set of a user for a document, stated directly as one filter over the store:
permissions granted to the user directly, plus permissions granted to a group
containing the user among its members, restricted to the document. -/
def specEffectiveSet (documentId userId : Str) (s : PMState) : List Permission :=
  s.permissions.filter (fun p =>
    p.documentId == documentId &&
    ((p.granteeType == .user && p.granteeId == userId) ||
     (p.granteeType == .group &&
       s.groups.any (fun g => g.id == p.granteeId && g.members.contains userId))))

/-- Spec-side definition (spec section 4.3 step 4): the maximum level of a
permission set, as a fold over its levels starting from view keeping the
higher-positioned level. -/
def specMaxLevel (ps : List Permission) : PermissionLevel :=
  (ps.map (fun p => p.level)).foldl
    (fun best l => if levelPos best ≤ levelPos l then l else best) .view

/-- A permission applies to a user: granted to the user directly, or granted
to a group the user is a member of. -/
def grantsTo (s : PMState) (userId : Str) (p : Permission) : Prop :=
  (p.granteeType = .user ∧ p.granteeId = userId) ∨
  (p.granteeType = .group ∧ ∃ g ∈ s.groups, g.id = p.granteeId ∧ userId ∈ g.members)

/-- The state invariant: tuple uniqueness of the permission store, and
referential integrity of permission grantees into the principal stores. -/
def Inv (s : PMState) : Prop :=
  (s.permissions.map tupleKey).Nodup ∧
  ∀ p ∈ s.permissions,
    (p.granteeType = .user → p.granteeId ∈ s.users.map User.id) ∧
    (p.granteeType = .group → p.granteeId ∈ s.groups.map Group.id)

def sAlice : PMState := (createUser (str "Alice") (str "alice@x.com") Role.user emptyState).2

def sEng : PMState := (createGroup (str "Eng") none sAlice).2

def sMember : PMState := (addUserToGroup (str "0") (str "1") sEng).2

def sGranted : PMState := (grantPermission (str "doc1") (str "1") GranteeType.group .download (str "0") 5 sMember).2

def sAdmin : PMState := initializePermissions emptyState

def sDirectGrant : PMState := (grantPermission (str "doc1") (str "0") GranteeType.user .view (str "0") 3 sAlice).2

/-- Reference semantics for the snapshot claim: a JS array is a heap object
named by a reference, and the module bindings users and groups each hold one
reference. A map from references to list values plays the heap. -/
structure HeapState where
  userHeap : Nat → List User
  groupHeap : Nat → List Group
  usersRef : Nat
  groupsRef : Nat

def readUsers (m : HeapState) (r : Nat) : List User := m.userHeap r

def readGroups (m : HeapState) (r : Nat) : List Group := m.groupHeap r

/-- getAllUsers = () => users in reference semantics: the value of the binding
is the reference itself, so the caller receives the store array, not a copy. -/
def getAllUsersRef (m : HeapState) : Nat := m.usersRef

def getAllGroupsRef (m : HeapState) : Nat := m.groupsRef

/-- Caller-side mutation of a returned array: push one element onto the array
behind reference r. -/
def pushUser (r : Nat) (u : User) (m : HeapState) : HeapState :=
  { m with userHeap := fun i => if i = r then m.userHeap r ++ [u] else m.userHeap i }

def pushGroup (r : Nat) (g : Group) (m : HeapState) : HeapState :=
  { m with groupHeap := fun i => if i = r then m.groupHeap r ++ [g] else m.groupHeap i }

def aliceUser : User :=
  { id := str "0", name := str "Alice", email := str "alice@x.com", role := Role.user }

def bobUser : User :=
  { id := str "1", name := str "Bob", email := str "bob@x.com", role := Role.user }

def heap0 : HeapState :=
  { userHeap := fun i => if i = 0 then [aliceUser] else [],
    groupHeap := fun _ => [], usersRef := 0, groupsRef := 0 }

lemma hasPermissionLevel_eq (a b : PermissionLevel) :
    hasPermissionLevel a b = decide (levelPos b ≤ levelPos a) := by
  cases a <;> cases b <;> rfl

lemma matchesTuple_iff (d g : Str) (t : GranteeType) (p : Permission) :
    matchesTuple d g t p = true ↔ tupleKey p = (d, g, t) := by
  simp [matchesTuple, tupleKey, Prod.ext_iff, and_assoc]

lemma updateFirst_map {f : α → α} {k : α → β} (hp : ∀ x, k (f x) = k x)
    (p : α → Bool) (l : List α) : (updateFirst p f l).map k = l.map k := by
  induction l with
  | nil => rfl
  | cons x xs ih =>
    by_cases hx : p x = true
    · simp [updateFirst, hx, hp]
    · simp [updateFirst, hx, ih]

lemma mem_updateFirst {f : α → α} {p : α → Bool} {l : List α} {y : α}
    (hy : y ∈ updateFirst p f l) : y ∈ l ∨ ∃ x, x ∈ l ∧ p x = true ∧ y = f x := by
  induction l with
  | nil => simp [updateFirst] at hy
  | cons x xs ih =>
    by_cases hx : p x = true
    · simp [updateFirst, hx] at hy
      rcases hy with hy | hy
      · exact Or.inr ⟨x, List.mem_cons_self x xs, hx, hy⟩
      · exact Or.inl (List.mem_cons_of_mem x hy)
    · simp [updateFirst, hx] at hy
      rcases hy with hy | hy
      · exact Or.inl (hy ▸ List.mem_cons_self x xs)
      · rcases ih hy with h | ⟨z, hz, hpz, hyz⟩
        · exact Or.inl (List.mem_cons_of_mem x h)
        · exact Or.inr ⟨z, List.mem_cons_of_mem x hz, hpz, hyz⟩

lemma removeFirst_sublist (p : α → Bool) (l : List α) : List.Sublist (removeFirst p l) l := by
  induction l with
  | nil => simp [removeFirst]
  | cons x xs ih =>
    by_cases hx : p x = true
    · simp [removeFirst, hx]
    · simpa [removeFirst, hx] using List.Sublist.cons₂ x ih

lemma mem_removeFirst {p : α → Bool} {l : List α} {y : α}
    (hy : y ∈ removeFirst p l) : y ∈ l :=
  (removeFirst_sublist p l).mem hy

lemma updateFirst_eq_map {d g : Str} {t : GranteeType} (f : Permission → Permission)
    {l : List Permission} (h : (l.map tupleKey).Nodup) :
    updateFirst (matchesTuple d g t) f l
      = l.map (fun p => if matchesTuple d g t p then f p else p) := by
  induction l with
  | nil => rfl
  | cons x xs ih =>
    simp only [List.map_cons, List.nodup_cons] at h
    by_cases hx : matchesTuple d g t x = true
    · have hkey := (matchesTuple_iff d g t x).mp hx
      have hxs : ∀ y ∈ xs, matchesTuple d g t y = false := by
        intro y hy
        rcases Bool.eq_false_or_eq_true (matchesTuple d g t y) with htr | hf
        · exfalso
          have hykey := (matchesTuple_iff d g t y).mp htr
          exact h.1 (hkey.trans hykey.symm ▸ List.mem_map_of_mem tupleKey hy)
        · exact hf
      have hmap : xs.map (fun p => if matchesTuple d g t p then f p else p) = xs := by
        have h1 : xs.map (fun p => if matchesTuple d g t p then f p else p) = xs.map id :=
          List.map_congr_left (fun y hy => by simp [hxs y hy])
        simpa using h1
      simp [updateFirst, hx, hmap]
    · simp only [updateFirst, Bool.not_eq_true] at hx ⊢
      simp [hx, ih h.2]

lemma removeFirst_no_match {d g : Str} {t : GranteeType} {l : List Permission}
    (h : (l.map tupleKey).Nodup) {y : Permission}
    (hy : y ∈ removeFirst (matchesTuple d g t) l) : matchesTuple d g t y = false := by
  induction l with
  | nil => simp [removeFirst] at hy
  | cons x xs ih =>
    simp only [List.map_cons, List.nodup_cons] at h
    by_cases hx : matchesTuple d g t x = true
    · simp only [removeFirst, hx, if_true] at hy
      rcases Bool.eq_false_or_eq_true (matchesTuple d g t y) with htr | hf
      · exfalso
        have hykey := (matchesTuple_iff d g t y).mp htr
        have hxkey := (matchesTuple_iff d g t x).mp hx
        exact h.1 (hxkey.trans hykey.symm ▸ List.mem_map_of_mem tupleKey hy)
      · exact hf
    · simp only [removeFirst, hx, if_false, Bool.not_eq_true] at hy
      rcases List.mem_cons.mp hy with rfl | hy'
      · exact Bool.not_eq_true _ ▸ (by simpa using hx)
      · exact ih h.2 hy'

lemma inv_createUser (n e : Str) (r : Role) (s : PMState) (h : Inv s) :
    Inv (createUser n e r s).2 := by
  unfold createUser
  split
  · exact h
  · split
    · exact h
    · obtain ⟨h1, h2⟩ := h
      refine ⟨h1, fun p hp => ?_⟩
      obtain ⟨hu, hg⟩ := h2 p hp
      exact ⟨fun ht => by simpa using Or.inl (by simpa using hu ht), hg⟩

lemma inv_createGroup (n : Str) (d : Option Str) (s : PMState) (h : Inv s) :
    Inv (createGroup n d s).2 := by
  unfold createGroup
  split
  · exact h
  · split
    · exact h
    · obtain ⟨h1, h2⟩ := h
      refine ⟨h1, fun p hp => ?_⟩
      obtain ⟨hu, hg⟩ := h2 p hp
      exact ⟨hu, fun ht => by simpa using Or.inl (by simpa using hg ht)⟩

lemma inv_addUserToGroup (u g : Str) (s : PMState) (h : Inv s) :
    Inv (addUserToGroup u g s).2 := by
  unfold addUserToGroup
  split
  · exact h
  · split
    · exact h
    · split
      · exact h
      · obtain ⟨h1, h2⟩ := h
        refine ⟨h1, fun p hp => ?_⟩
        obtain ⟨hu, hg⟩ := h2 p hp
        refine ⟨hu, fun ht => ?_⟩
        have hmap : (updateFirst (fun x => x.id == g)
            (fun x => { x with members := x.members ++ [u] }) s.groups).map Group.id
              = s.groups.map Group.id :=
          updateFirst_map (f := fun x => { x with members := x.members ++ [u] })
            (k := Group.id) (fun x => rfl) _ _
        simpa [hmap] using hg ht

lemma inv_removeUserFromGroup (u g : Str) (s : PMState) (h : Inv s) :
    Inv (removeUserFromGroup u g s).2 := by
  unfold removeUserFromGroup
  split
  · exact h
  · split
    · exact h
    · obtain ⟨h1, h2⟩ := h
      refine ⟨h1, fun p hp => ?_⟩
      obtain ⟨hu, hg⟩ := h2 p hp
      refine ⟨hu, fun ht => ?_⟩
      have hmap : (updateFirst (fun x => x.id == g)
          (fun x => { x with members := removeFirst (fun m => m == u) x.members })
            s.groups).map Group.id = s.groups.map Group.id :=
        updateFirst_map (f := fun x => { x with members := removeFirst (fun m => m == u) x.members })
          (k := Group.id) (fun x => rfl) _ _
      simpa [hmap] using hg ht

lemma mem_map_userId_of_find? {l : List User} {g : Str}
    (h : (l.find? (fun u => u.id == g)).isNone = false) : g ∈ l.map User.id := by
  have hs : (l.find? (fun u => u.id == g)).isSome := by
    cases hf : l.find? (fun u => u.id == g) with
    | none => rw [hf] at h; simp at h
    | some u => simp
  rcases List.find?_isSome.mp hs with ⟨u, hu, hbeq⟩
  exact List.mem_map.mpr ⟨u, hu, by simpa using hbeq⟩

lemma mem_map_groupId_of_find? {l : List Group} {g : Str}
    (h : (l.find? (fun x => x.id == g)).isNone = false) : g ∈ l.map Group.id := by
  have hs : (l.find? (fun x => x.id == g)).isSome := by
    cases hf : l.find? (fun x => x.id == g) with
    | none => rw [hf] at h; simp at h
    | some u => simp
  rcases List.find?_isSome.mp hs with ⟨u, hu, hbeq⟩
  exact List.mem_map.mpr ⟨u, hu, by simpa using hbeq⟩

lemma inv_grantPermission (d g : Str) (t : GranteeType) (lvl : PermissionLevel)
    (gb : Str) (now : Nat) (s : PMState) (h : Inv s) :
    Inv (grantPermission d g t lvl gb now s).2 := by
  unfold grantPermission
  split
  next => exact h
  next hcu =>
    split
    next => exact h
    next hcg =>
      split
      next existing hfind =>
        obtain ⟨h1, h2⟩ := h
        constructor
        · have hmap := updateFirst_map (f := fun p => { p with level := lvl, updatedAt := now })
            (k := tupleKey) (fun x => rfl) (matchesTuple d g t) s.permissions
          simpa [hmap] using h1
        · intro p hp
          rcases mem_updateFirst hp with hmem | ⟨x, hx, hpx, rfl⟩
          · exact h2 p hmem
          · exact h2 x hx
      next hfind =>
        obtain ⟨h1, h2⟩ := h
        dsimp only
        constructor
        · have hnotin : (d, g, t) ∉ s.permissions.map tupleKey := by
            intro hmem
            rcases List.mem_map.mp hmem with ⟨x, hx, hkx⟩
            exact (List.find?_eq_none.mp hfind x hx) ((matchesTuple_iff d g t x).mpr hkx)
          simp only [List.map_append, List.map_cons, List.map_nil]
          rw [List.nodup_append]
          refine ⟨h1, List.nodup_singleton _, ?_⟩
          intro a ha hb
          simp only [tupleKey, List.mem_singleton] at hb
          exact hnotin (hb ▸ ha)
        · intro p hp
          rcases List.mem_append.mp hp with hmem | hnew
          · exact h2 p hmem
          · simp only [List.mem_singleton] at hnew
            subst hnew
            constructor
            · intro ht
              dsimp only at ht
              rw [ht] at hcu
              simp only [beq_self_eq_true, Bool.true_and, Bool.not_eq_true] at hcu
              exact mem_map_userId_of_find? hcu
            · intro ht
              dsimp only at ht
              rw [ht] at hcg
              simp only [beq_self_eq_true, Bool.true_and, Bool.not_eq_true] at hcg
              exact mem_map_groupId_of_find? hcg

lemma inv_revokePermission (d g : Str) (t : GranteeType) (s : PMState) (h : Inv s) :
    Inv (revokePermission d g t s).2 := by
  unfold revokePermission
  split
  next => exact h
  next =>
    obtain ⟨h1, h2⟩ := h
    refine ⟨?_, fun p hp => h2 p (mem_removeFirst hp)⟩
    exact List.Nodup.sublist (List.Sublist.map tupleKey (removeFirst_sublist _ _)) h1

lemma inv_initializePermissions (s : PMState) (h : Inv s) : Inv (initializePermissions s) := by
  unfold initializePermissions
  split
  · exact inv_createUser _ _ _ _ h
  · exact h

lemma reachable_inv {s : PMState} (h : Reachable s) : Inv s := by
  induction h with
  | init => exact ⟨by simp [emptyState], by simp [emptyState]⟩
  | step_createUser n e r _ ih => exact inv_createUser n e r _ ih
  | step_createGroup n d _ ih => exact inv_createGroup n d _ ih
  | step_addUserToGroup u g _ ih => exact inv_addUserToGroup u g _ ih
  | step_removeUserFromGroup u g _ ih => exact inv_removeUserFromGroup u g _ ih
  | step_grantPermission d g t l gb now _ ih => exact inv_grantPermission d g t l gb now _ ih
  | step_revokePermission d g t _ ih => exact inv_revokePermission d g t _ ih
  | step_initializePermissions _ ih => exact inv_initializePermissions _ ih

lemma contains_map_filter (l : List Group) (u x : Str) :
    (((l.filter (fun g => g.members.contains u)).map (fun g => g.id)).contains x)
      = l.any (fun g => g.id == x && g.members.contains u) := by
  rw [Bool.eq_iff_iff]
  simp only [List.contains_iff_exists_mem_beq, List.any_eq_true, List.mem_map,
    List.mem_filter, Bool.and_eq_true, beq_iff_eq]
  constructor
  · rintro ⟨y, ⟨g, ⟨hg, hm⟩, rfl⟩, hbeq⟩
    exact ⟨g, hg, hbeq.symm, hm⟩
  · rintro ⟨g, hg, hid, hm⟩
    exact ⟨g.id, ⟨g, ⟨hg, hm⟩, rfl⟩, hid.symm⟩

lemma foldStep_eq :
    (fun (highest : PermissionLevel) (current : Permission) =>
      if hasPermissionLevel current.level highest then current.level else highest)
    = (fun best p => if levelPos best ≤ levelPos p.level then p.level else best) := by
  funext best p
  rw [hasPermissionLevel_eq]
  by_cases hc : levelPos best ≤ levelPos p.level
  · simp [hc]
  · simp [hc]

lemma checkPermission_eq_effective (d u : Str) (L : PermissionLevel) (s : PMState)
    (hna : ∀ x ∈ s.users, x.id = u → x.role ≠ Role.admin) :
    checkPermission d u L s =
      if specEffectiveSet d u s = [] then false
      else decide (levelPos L ≤ levelPos (specMaxLevel (specEffectiveSet d u s))) := by
  have hadm : (s.users.find? (fun x => x.id == u)).any (fun x => x.role == Role.admin)
      = false := by
    cases hf : s.users.find? (fun x => x.id == u) with
    | none => rfl
    | some x =>
      have hx := List.mem_of_find?_eq_some hf
      have hid : x.id = u := by simpa using List.find?_some hf
      have hr := hna x hx hid
      cases hrole : x.role with
      | user => simp [Option.any, hrole]
      | admin => exact absurd hrole hr
  have heff : (getUserPermissions u s).filter (fun p => p.documentId == d)
      = specEffectiveSet d u s := by
    unfold getUserPermissions specEffectiveSet
    dsimp only
    rw [List.filter_filter]
    apply List.filter_congr
    intro p hp
    rw [contains_map_filter]
  unfold checkPermission
  rw [hadm]
  dsimp only
  rw [heff]
  by_cases he : specEffectiveSet d u s = []
  · simp [he]
  · have hne : (specEffectiveSet d u s).isEmpty = false := by
      simpa [List.isEmpty_iff] using he
    rw [if_neg he]
    simp only [hne, Bool.false_eq_true, if_false]
    rw [specMaxLevel, List.foldl_map, foldStep_eq]
    exact hasPermissionLevel_eq _ _

/-- Claim C1: for a user whose stored role is not admin, checkPermission is
false when the effective permission set for the document (direct grants plus
grants to groups containing the user, restricted to the document) is empty,
and otherwise is true exactly when the maximum level of that set, folded from
view under the order view, edit, download, admin, is at least the required
level. -/
theorem checkPermission_nonadmin_spec (d u : Str) (L : PermissionLevel) (s : PMState)
    (hna : ∀ x ∈ s.users, x.id = u → x.role ≠ Role.admin) :
    checkPermission d u L s =
      if specEffectiveSet d u s = [] then false
      else decide (levelPos L ≤ levelPos (specMaxLevel (specEffectiveSet d u s))) :=
  checkPermission_eq_effective d u L s hna

/-- Witness for C1 at a concrete reachable state with a group grant. -/
theorem checkPermission_nonadmin_spec_witness :
    (∀ x ∈ sGranted.users, x.id = (str "0") → x.role ≠ Role.admin) ∧
    checkPermission (str "doc1") (str "0") PermissionLevel.admin sGranted =
      if specEffectiveSet (str "doc1") (str "0") sGranted = [] then false
      else decide (levelPos PermissionLevel.admin ≤
        levelPos (specMaxLevel (specEffectiveSet (str "doc1") (str "0") sGranted))) :=
  ⟨by decide, checkPermission_nonadmin_spec (str "doc1") (str "0") PermissionLevel.admin sGranted (by decide)⟩

/-- Claim C2: if the stored user with id U has role admin, checkPermission is
true for every document and required level, even with no permissions at all. -/
theorem admin_bypass (s : PMState) (d uid : Str) (L : PermissionLevel)
    (hex : ∃ x ∈ s.users, x.id = uid)
    (hall : ∀ x ∈ s.users, x.id = uid → x.role = Role.admin) :
    checkPermission d uid L s = true := by
  obtain ⟨x, hx, hid⟩ := hex
  have hsome : (s.users.find? (fun y => y.id == uid)).isSome :=
    List.find?_isSome.mpr ⟨x, hx, by simp [hid]⟩
  rcases Option.isSome_iff_exists.mp hsome with ⟨y, hy⟩
  have hyrole := hall y (List.mem_of_find?_eq_some hy) (by simpa using List.find?_some hy)
  unfold checkPermission
  rw [hy]
  simp [Option.any, hyrole]

/-- Witness for C2: the seeded admin user passes every check with an empty
grant store. -/
theorem admin_bypass_witness :
    sAdmin.permissions = [] ∧ checkPermission (str "doc9") (str "0") PermissionLevel.admin sAdmin = true :=
  ⟨by decide, admin_bypass sAdmin (str "doc9") (str "0") PermissionLevel.admin (by decide) (by decide)⟩

/-- Claim C4: the satisfaction relation between levels is position comparison
in the sequence view, edit, download, admin: a satisfies b exactly when the
position of a is at least the position of b. -/
theorem hasPermissionLevel_is_position_order (a b : PermissionLevel) :
    hasPermissionLevel a b = decide (levelPos a ≥ levelPos b) := by
  cases a <;> cases b <;> rfl

/-- Claim C5 counterexample: with an empty name and an email already stored
case-insensitively, createUser returns the validation error rather than the
duplicate-email Conflict error, so the unrestricted quantification over names
in the claim fails. -/
theorem createUser_conflict_counterexample :
    (∃ x ∈ sAlice.users, strToLower x.email = strToLower (str "alice@x.com")) ∧
    (createUser (str "") (str "alice@x.com") Role.user sAlice).1 =
      .error ⟨.VALIDATION_ERROR, "Name and email are required"⟩ :=
  ⟨by decide, rfl⟩

/-- Claim C5 amended: provided the inputs pass the empty-trim validation that
runs first, createUser with an email matching a stored user case-insensitively
fails with the Conflict error, and createGroup with a name matching a stored
group case-insensitively fails with the Conflict error (the code renders the
Conflict kind of the spec as the INVALID_OPERATION error type). -/
theorem create_conflict_on_duplicate (s : PMState) (name email : Str) (r : Role)
    (dsc : Option Str) :
    (strTrim name ≠ [] → strTrim email ≠ [] →
      (∃ x ∈ s.users, strToLower x.email = strToLower email) →
      (createUser name email r s).1 =
        .error ⟨.INVALID_OPERATION, "User with this email already exists"⟩) ∧
    (strTrim name ≠ [] →
      (∃ g ∈ s.groups, strToLower g.name = strToLower name) →
      (createGroup name dsc s).1 =
        .error ⟨.INVALID_OPERATION, "Group with this name already exists"⟩) := by
  constructor
  · intro hn he hex
    obtain ⟨x, hx, hmail⟩ := hex
    have hc1 : ((strTrim name).isEmpty || (strTrim email).isEmpty) = false := by
      simp [hn, he]
    have hc2 : (s.users.find? (fun y => strToLower y.email == strToLower email)).isSome = true :=
      List.find?_isSome.mpr ⟨x, hx, by simp [hmail]⟩
    simp [createUser, hc1, hc2]
  · intro hn hex
    obtain ⟨g, hg, hname⟩ := hex
    have hc1 : ((strTrim name).isEmpty) = false := by simp [hn]
    have hc2 : (s.groups.find? (fun y => strToLower y.name == strToLower name)).isSome = true :=
      List.find?_isSome.mpr ⟨g, hg, by simp [hname]⟩
    simp [createGroup, hc1, hc2]

/-- Witness for the amended C5 at concrete duplicate inputs differing in
case. -/
theorem create_conflict_on_duplicate_witness :
    (createUser (str "Bob") (str "ALICE@x.com") Role.user sAlice).1 =
      .error ⟨.INVALID_OPERATION, "User with this email already exists"⟩ ∧
    (createGroup (str "ENG") none sEng).1 =
      .error ⟨.INVALID_OPERATION, "Group with this name already exists"⟩ :=
  ⟨(create_conflict_on_duplicate sAlice (str "Bob") (str "ALICE@x.com") Role.user none).1
      (by decide) (by decide) (by decide),
   (create_conflict_on_duplicate sEng (str "ENG") (str "irrelevant@x.com") Role.user none).2
      (by decide) (by decide)⟩

/-- Claim C6: the code lowercases but does not trim the email before the
uniqueness comparison, even though it stores the trimmed lowercase form. With
a stored user whose email equals the trimmed lowercase form of the input, the
claim requires a duplicate-email failure, but createUser succeeds and stores a
second user with the very same email, breaking the uniqueness the check is
for. -/
theorem createUser_untrimmed_comparison_bug :
    (∃ x ∈ sAlice.users, x.email = strTrim (strToLower (str " alice@x.com"))) ∧
    (∃ x, (createUser (str "Bob") (str " alice@x.com") Role.user sAlice).1 = .ok x) ∧
    (createUser (str "Bob") (str " alice@x.com") Role.user sAlice).2.users.map User.email
      = [(str "alice@x.com"), (str "alice@x.com")] := by
  refine ⟨by decide, ⟨_, rfl⟩, by decide⟩

/-- Claim C3: in every reachable state at most one Permission exists per
(documentId, granteeId, granteeType) tuple, and granting again on an existing
tuple rewrites exactly that Permission in place, changing only its level and
updatedAt and appending no new record: the resulting store is the pointwise
image of the old one. -/
theorem permission_tuple_unique_upsert (s : PMState) (h : Reachable s) :
    (s.permissions.map tupleKey).Nodup ∧
    ∀ d g t lvl gb now, (∃ p ∈ s.permissions, matchesTuple d g t p) →
      (grantPermission d g t lvl gb now s).2.permissions =
        s.permissions.map (fun p =>
          if matchesTuple d g t p then { p with level := lvl, updatedAt := now } else p) := by
  obtain ⟨h1, h2⟩ := reachable_inv h
  refine ⟨h1, ?_⟩
  intro d g t lvl gb now hex
  obtain ⟨p0, hp0, hm0⟩ := hex
  have hm0' := hm0
  simp only [matchesTuple, Bool.and_eq_true, beq_iff_eq] at hm0'
  obtain ⟨⟨hd0, hg0⟩, ht0⟩ := hm0'
  have hcu : ¬((t == GranteeType.user && (s.users.find? (fun y => y.id == g)).isNone) = true) := by
    intro hc
    simp only [Bool.and_eq_true, beq_iff_eq] at hc
    obtain ⟨ht, hnone⟩ := hc
    have hmem := (h2 p0 hp0).1 (ht0.trans ht)
    rw [hg0] at hmem
    rcases List.mem_map.mp hmem with ⟨x, hx, hxid⟩
    have hnone' : s.users.find? (fun y => y.id == g) = none :=
      Option.isNone_iff_eq_none.mp hnone
    exact (List.find?_eq_none.mp hnone' x hx) (by simp [hxid])
  have hcg : ¬((t == GranteeType.group && (s.groups.find? (fun y => y.id == g)).isNone) = true) := by
    intro hc
    simp only [Bool.and_eq_true, beq_iff_eq] at hc
    obtain ⟨ht, hnone⟩ := hc
    have hmem := (h2 p0 hp0).2 (ht0.trans ht)
    rw [hg0] at hmem
    rcases List.mem_map.mp hmem with ⟨x, hx, hxid⟩
    have hnone' : s.groups.find? (fun y => y.id == g) = none :=
      Option.isNone_iff_eq_none.mp hnone
    exact (List.find?_eq_none.mp hnone' x hx) (by simp [hxid])
  have hfs : (s.permissions.find? (matchesTuple d g t)).isSome :=
    List.find?_isSome.mpr ⟨p0, hp0, hm0⟩
  rcases Option.isSome_iff_exists.mp hfs with ⟨q, hq⟩
  unfold grantPermission
  rw [if_neg hcu, if_neg hcg, hq]
  exact updateFirst_eq_map _ h1

/-- Witness for C3 at a reachable state holding one direct grant. -/
theorem permission_tuple_unique_upsert_witness :
    (sDirectGrant.permissions.map tupleKey).Nodup ∧
    (grantPermission (str "doc1") (str "0") GranteeType.user .edit (str "0") 7
        sDirectGrant).2.permissions =
      sDirectGrant.permissions.map (fun p =>
        if matchesTuple (str "doc1") (str "0") GranteeType.user p then
          { p with level := .edit, updatedAt := 7 } else p) :=
  have hr : Reachable sDirectGrant :=
    Reachable.step_grantPermission (str "doc1") (str "0") GranteeType.user .view (str "0") 3
      (Reachable.step_createUser (str "Alice") (str "alice@x.com") Role.user Reachable.init)
  ⟨(permission_tuple_unique_upsert sDirectGrant hr).1,
   (permission_tuple_unique_upsert sDirectGrant hr).2 (str "doc1") (str "0")
     GranteeType.user .edit (str "0") 7 (by decide)⟩

lemma grant_error_frame (d g : Str) (t : GranteeType) (lvl : PermissionLevel) (gb : Str)
    (now : Nat) (s : PMState) (e : PermissionError)
    (he : (grantPermission d g t lvl gb now s).1 = .error e) :
    (grantPermission d g t lvl gb now s).2 = s := by
  by_cases h1 : (t == GranteeType.user && (s.users.find? (fun y => y.id == g)).isNone) = true
  · simp [grantPermission, h1]
  · by_cases h2 : (t == GranteeType.group && (s.groups.find? (fun y => y.id == g)).isNone) = true
    · simp [grantPermission, h1, h2]
    · exfalso
      cases hf : s.permissions.find? (matchesTuple d g t) with
      | none => simp [grantPermission, h1, h2, hf] at he
      | some q => simp [grantPermission, h1, h2, hf] at he

lemma revoke_error_frame (d g : Str) (t : GranteeType) (s : PMState) (e : PermissionError)
    (he : (revokePermission d g t s).1 = .error e) :
    (revokePermission d g t s).2 = s := by
  by_cases h1 : (s.permissions.find? (matchesTuple d g t)).isNone = true
  · simp [revokePermission, h1]
  · exfalso
    simp [revokePermission, h1] at he

lemma revoke_notfound_iff (d g : Str) (t : GranteeType) (s : PMState) :
    ((revokePermission d g t s).1 = .error ⟨.NOT_FOUND, "Permission not found"⟩) ↔
      ∀ p ∈ s.permissions, matchesTuple d g t p = false := by
  by_cases h1 : (s.permissions.find? (matchesTuple d g t)).isNone = true
  · constructor
    · intro _ p hp
      have hnone := List.find?_eq_none.mp (Option.isNone_iff_eq_none.mp h1) p hp
      simpa using hnone
    · intro _
      simp [revokePermission, h1]
  · have h1' : (s.permissions.find? (matchesTuple d g t)).isSome := by
      cases hf : s.permissions.find? (matchesTuple d g t) with
      | none => rw [hf] at h1; simp at h1
      | some q => simp
    rcases Option.isSome_iff_exists.mp h1' with ⟨q, hq⟩
    constructor
    · intro he
      exfalso
      simp [revokePermission, h1] at he
    · intro hall
      exfalso
      have hqp := List.find?_some hq
      rw [hall q (List.mem_of_find?_eq_some hq)] at hqp
      exact Bool.false_ne_true hqp

/-- Claim C8: a grantPermission call that returns an error leaves the state
untouched; revokePermission returns the NOT_FOUND error exactly when no
Permission matches the tuple, and an erroring revoke also leaves the state
untouched. -/
theorem failed_grant_revoke_frame (s : PMState) (d g : Str) (t : GranteeType)
    (lvl : PermissionLevel) (gb : Str) (now : Nat) :
    (∀ e, (grantPermission d g t lvl gb now s).1 = .error e →
      (grantPermission d g t lvl gb now s).2 = s) ∧
    (((revokePermission d g t s).1 = .error ⟨.NOT_FOUND, "Permission not found"⟩) ↔
      ∀ p ∈ s.permissions, matchesTuple d g t p = false) ∧
    (∀ e, (revokePermission d g t s).1 = .error e → (revokePermission d g t s).2 = s) :=
  ⟨fun e he => grant_error_frame d g t lvl gb now s e he,
   revoke_notfound_iff d g t s,
   fun e he => revoke_error_frame d g t s e he⟩

/-- Witness for C8: granting to a missing grantee and revoking a missing tuple
on the empty state error out and leave the state empty. -/
theorem failed_grant_revoke_frame_witness :
    (grantPermission (str "d1") (str "u9") GranteeType.user .view (str "gb") 0 emptyState).2
      = emptyState ∧
    ((revokePermission (str "d1") (str "u9") GranteeType.user emptyState).1
      = .error ⟨.NOT_FOUND, "Permission not found"⟩) ∧
    (revokePermission (str "d1") (str "u9") GranteeType.user emptyState).2 = emptyState :=
  have h := failed_grant_revoke_frame emptyState (str "d1") (str "u9") GranteeType.user
    .view (str "gb") 0
  ⟨h.1 ⟨.NOT_FOUND, "User not found"⟩ rfl,
   h.2.1.mpr (by simp [emptyState]),
   h.2.2 ⟨.NOT_FOUND, "Permission not found"⟩ rfl⟩

/-- Claim C9: in every reachable state each Permission grantee id names an
existing User or Group of the matching kind, so both principal lookups inside
getDocumentAccessList succeed and every returned entry pairs a Permission with
its actual principal. -/
theorem accessList_lookups_safe (s : PMState) (h : Reachable s) (d : Str) :
    (∀ p ∈ s.permissions,
      (p.granteeType = GranteeType.user → ∃ x ∈ s.users, x.id = p.granteeId) ∧
      (p.granteeType = GranteeType.group → ∃ g ∈ s.groups, g.id = p.granteeId)) ∧
    (∀ e ∈ (getDocumentAccessList d s).1,
      ∃ x, e.1 = some x ∧ x ∈ s.users ∧ x.id = e.2.granteeId) ∧
    (∀ e ∈ (getDocumentAccessList d s).2,
      ∃ g, e.1 = some g ∧ g ∈ s.groups ∧ g.id = e.2.granteeId) := by
  obtain ⟨h1, h2⟩ := reachable_inv h
  refine ⟨?_, ?_, ?_⟩
  · intro p hp
    obtain ⟨hu2, hg2⟩ := h2 p hp
    refine ⟨fun ht => ?_, fun ht => ?_⟩
    · rcases List.mem_map.mp (hu2 ht) with ⟨x, hx, hxid⟩
      exact ⟨x, hx, hxid⟩
    · rcases List.mem_map.mp (hg2 ht) with ⟨x, hx, hxid⟩
      exact ⟨x, hx, hxid⟩
  · intro e he
    unfold getDocumentAccessList getDocumentPermissions at he
    dsimp only at he
    rcases List.mem_map.mp he with ⟨p, hp, rfl⟩
    obtain ⟨hp1, htype⟩ := List.mem_filter.mp hp
    obtain ⟨hpmem, _⟩ := List.mem_filter.mp hp1
    have ht : p.granteeType = GranteeType.user := by simpa using htype
    rcases List.mem_map.mp ((h2 p hpmem).1 ht) with ⟨x, hx, hxid⟩
    have hfs : (s.users.find? (fun y => y.id == p.granteeId)).isSome :=
      List.find?_isSome.mpr ⟨x, hx, by simp [hxid]⟩
    rcases Option.isSome_iff_exists.mp hfs with ⟨y, hy⟩
    exact ⟨y, hy, List.mem_of_find?_eq_some hy, by simpa using List.find?_some hy⟩
  · intro e he
    unfold getDocumentAccessList getDocumentPermissions at he
    dsimp only at he
    rcases List.mem_map.mp he with ⟨p, hp, rfl⟩
    obtain ⟨hp1, htype⟩ := List.mem_filter.mp hp
    obtain ⟨hpmem, _⟩ := List.mem_filter.mp hp1
    have ht : p.granteeType = GranteeType.group := by simpa using htype
    rcases List.mem_map.mp ((h2 p hpmem).2 ht) with ⟨x, hx, hxid⟩
    have hfs : (s.groups.find? (fun y => y.id == p.granteeId)).isSome :=
      List.find?_isSome.mpr ⟨x, hx, by simp [hxid]⟩
    rcases Option.isSome_iff_exists.mp hfs with ⟨y, hy⟩
    exact ⟨y, hy, List.mem_of_find?_eq_some hy, by simpa using List.find?_some hy⟩

/-- Witness for C9 at a reachable state with one group grant on doc1. -/
theorem accessList_lookups_safe_witness :
    (∀ p ∈ sGranted.permissions,
      (p.granteeType = GranteeType.user → ∃ x ∈ sGranted.users, x.id = p.granteeId) ∧
      (p.granteeType = GranteeType.group → ∃ g ∈ sGranted.groups, g.id = p.granteeId)) ∧
    (∀ e ∈ (getDocumentAccessList (str "doc1") sGranted).1,
      ∃ x, e.1 = some x ∧ x ∈ sGranted.users ∧ x.id = e.2.granteeId) ∧
    (∀ e ∈ (getDocumentAccessList (str "doc1") sGranted).2,
      ∃ g, e.1 = some g ∧ g ∈ sGranted.groups ∧ g.id = e.2.granteeId) :=
  accessList_lookups_safe sGranted
    (Reachable.step_grantPermission (str "doc1") (str "1") GranteeType.group .download
        (str "0") 5
      (Reachable.step_addUserToGroup (str "0") (str "1")
        (Reachable.step_createGroup (str "Eng") none
          (Reachable.step_createUser (str "Alice") (str "alice@x.com") Role.user
            Reachable.init))))
    (str "doc1")

lemma grant_principals (d g : Str) (t : GranteeType) (lvl : PermissionLevel) (gb : Str)
    (now : Nat) (s : PMState) :
    (grantPermission d g t lvl gb now s).2.users = s.users ∧
    (grantPermission d g t lvl gb now s).2.groups = s.groups := by
  unfold grantPermission
  split
  · exact ⟨rfl, rfl⟩
  · split
    · exact ⟨rfl, rfl⟩
    · split
      · exact ⟨rfl, rfl⟩
      · exact ⟨rfl, rfl⟩

lemma revoke_principals (d g : Str) (t : GranteeType) (s : PMState) :
    (revokePermission d g t s).2.users = s.users ∧
    (revokePermission d g t s).2.groups = s.groups := by
  unfold revokePermission
  split
  · exact ⟨rfl, rfl⟩
  · exact ⟨rfl, rfl⟩

lemma grant_mem_sub (d g : Str) (t : GranteeType) (lvl : PermissionLevel) (gb : Str)
    (now : Nat) (s : PMState) :
    ∀ q ∈ (grantPermission d g t lvl gb now s).2.permissions,
      matchesTuple d g t q = true ∨ q ∈ s.permissions := by
  intro q hq
  unfold grantPermission at hq
  split at hq
  · exact Or.inr hq
  · split at hq
    · exact Or.inr hq
    · split at hq
      · dsimp only at hq
        rcases mem_updateFirst hq with hmem | ⟨x, hx, hpx, rfl⟩
        · exact Or.inr hmem
        · exact Or.inl hpx
      · dsimp only at hq
        rcases List.mem_append.mp hq with hmem | hnew
        · exact Or.inr hmem
        · left
          simp only [List.mem_singleton] at hnew
          subst hnew
          simp [matchesTuple]

lemma grant_then_revoke_clears (d g : Str) (t : GranteeType) (lvl : PermissionLevel)
    (gb : Str) (now : Nat) {s : PMState} (hInv : Inv s) :
    ∀ p ∈ (revokePermission d g t (grantPermission d g t lvl gb now s).2).2.permissions,
      p ∈ s.permissions ∧ matchesTuple d g t p = false := by
  intro p hp
  obtain ⟨hN1, _⟩ := inv_grantPermission d g t lvl gb now s hInv
  unfold revokePermission at hp
  split at hp
  next hnone =>
    dsimp only at hp
    have hno := List.find?_eq_none.mp (Option.isNone_iff_eq_none.mp hnone) p hp
    refine ⟨?_, by simpa using hno⟩
    rcases grant_mem_sub d g t lvl gb now s p hp with hm | hmem
    · exact absurd hm (by simpa using hno)
    · exact hmem
  next hsome =>
    dsimp only at hp
    have hnm := removeFirst_no_match hN1 hp
    have hmem1 := mem_removeFirst hp
    refine ⟨?_, hnm⟩
    rcases grant_mem_sub d g t lvl gb now s p hmem1 with hm | hmem
    · rw [hnm] at hm
      exact absurd hm (by simp)
    · exact hmem

/-- Claim C7: after granting to a tuple and revoking the same tuple, a
non-admin user whose only applicable grants for the document come from that
tuple has no access at any required level. -/
theorem grant_revoke_removes_access (s : PMState) (h : Reachable s)
    (d g : Str) (t : GranteeType) (lvl : PermissionLevel) (gb : Str) (now : Nat)
    (u : Str) (hna : ∀ x ∈ s.users, x.id = u → x.role ≠ Role.admin)
    (honly : ∀ p ∈ s.permissions, p.documentId = d → grantsTo s u p →
      p.granteeId = g ∧ p.granteeType = t)
    (L : PermissionLevel) :
    checkPermission d u L
      (revokePermission d g t (grantPermission d g t lvl gb now s).2).2 = false := by
  set s1 := (grantPermission d g t lvl gb now s).2 with hs1
  set s2 := (revokePermission d g t s1).2 with hs2
  have hu2 : s2.users = s.users := by
    rw [hs2, (revoke_principals d g t s1).1, hs1, (grant_principals d g t lvl gb now s).1]
  have hg2 : s2.groups = s.groups := by
    rw [hs2, (revoke_principals d g t s1).2, hs1, (grant_principals d g t lvl gb now s).2]
  have hna2 : ∀ x ∈ s2.users, x.id = u → x.role ≠ Role.admin := by
    rw [hu2]; exact hna
  rw [checkPermission_eq_effective d u L s2 hna2]
  have heff : specEffectiveSet d u s2 = [] := by
    unfold specEffectiveSet
    rw [List.filter_eq_nil_iff]
    intro p hp hpred
    obtain ⟨hmem, hnm⟩ := grant_then_revoke_clears d g t lvl gb now (reachable_inv h) p hp
    simp only [Bool.and_eq_true, Bool.or_eq_true, beq_iff_eq, List.any_eq_true] at hpred
    obtain ⟨hdoc, hrest⟩ := hpred
    have hgrants : grantsTo s u p := by
      rcases hrest with ⟨ht, hid⟩ | ⟨ht, x, hx, hxid, hxmem⟩
      · exact Or.inl ⟨ht, hid⟩
      · rw [hg2] at hx
        rcases List.contains_iff_exists_mem_beq.mp hxmem with ⟨y, hy, hbeq⟩
        have huy : u = y := by simpa using hbeq
        exact Or.inr ⟨ht, x, hx, hxid, huy ▸ hy⟩
    obtain ⟨hgid, hgt⟩ := honly p hmem hdoc hgrants
    have hmt : matchesTuple d g t p = true := by simp [matchesTuple, hdoc, hgid, hgt]
    rw [hnm] at hmt
    exact Bool.false_ne_true hmt
  rw [heff]
  simp

/-- Witness for C7: grant then revoke an edit permission for Alice directly on
doc1, starting from the one-user state; her view access is then denied. -/
theorem grant_revoke_removes_access_witness :
    (∀ x ∈ sAlice.users, x.id = (str "0") → x.role ≠ Role.admin) ∧
    checkPermission (str "doc1") (str "0") PermissionLevel.view
      (revokePermission (str "doc1") (str "0") GranteeType.user
        (grantPermission (str "doc1") (str "0") GranteeType.user .edit (str "0") 4
          sAlice).2).2 = false :=
  ⟨by decide,
   grant_revoke_removes_access sAlice
     (Reachable.step_createUser (str "Alice") (str "alice@x.com") Role.user Reachable.init)
     (str "doc1") (str "0") GranteeType.user .edit (str "0") 4 (str "0")
     (by decide)
     (by
       intro p hp
       rw [show sAlice.permissions = [] from rfl] at hp
       exact absurd hp (List.not_mem_nil p))
     PermissionLevel.view⟩

/-- Claim C10 counterexample: pushing onto the list returned by getAllUsers
changes the store contents that subsequent operations observe, because the
source returns the store array itself rather than a defensive copy. -/
theorem getAllUsers_not_defensive_copy :
    readUsers (pushUser (getAllUsersRef heap0) bobUser heap0) heap0.usersRef
      ≠ readUsers heap0 heap0.usersRef := by
  intro hc
  simp only [readUsers, pushUser, getAllUsersRef, heap0, if_pos] at hc
  exact absurd (congrArg List.length hc) (by decide)

/-- Claim C10 amended: getAllUsers and getAllGroups return full views of the
stored users and groups in insertion order, but as the store arrays
themselves, not defensive copies: the returned reference is the store
reference, reading it yields exactly the store contents, and pushing onto the
returned array appends to the store observed afterwards. -/
theorem getAll_returns_store_alias (m : HeapState) (s : PMState) (u : User) (g : Group) :
    getAllUsers s = s.users ∧ getAllGroups s = s.groups ∧
    getAllUsersRef m = m.usersRef ∧ getAllGroupsRef m = m.groupsRef ∧
    readUsers (pushUser (getAllUsersRef m) u m) m.usersRef
      = readUsers m m.usersRef ++ [u] ∧
    readGroups (pushGroup (getAllGroupsRef m) g m) m.groupsRef
      = readGroups m m.groupsRef ++ [g] := by
  refine ⟨rfl, rfl, rfl, rfl, ?_, ?_⟩
  · simp [readUsers, pushUser, getAllUsersRef]
  · simp [readGroups, pushGroup, getAllGroupsRef]

end PM
